import Mathlib

/-!
Verification of the Accessibility Tree Cache & Incremental Builder of
`macOS-use`, as implemented in `mlx_use/mac/optimized_tree.py`.

The Python module is shallowly embedded: the mutable `AppTreeCache` becomes an
explicit `Cache` record threaded through the operations, the OS-bound
`MacUITreeBuilder.build_tree` call becomes an externally supplied
`BuildOutcome`, and wall-clock time becomes an explicit `now : Nat` argument.
-/

set_option maxHeartbeats 1000000

namespace MacosUse

/-- Modelled from the spec: `MacElementNode` (`mlx_use/mac/element.py`, a file
not present under `src/`).  Per the spec's data model, an element node carries
a `role` tag, an opaque `identifier`, a string-keyed `attributes` map
(title, value, description, label, placeholder, ...), a list of supported
`actions`, `is_visible` and `is_interactive` flags, an optional
`highlight_index`, a root-to-node `accessibility_path` string, and an ordered
list of `children` owned by the node.  Attribute values are modelled as
strings (the sanitizer `_sanitize_value` coerces every scalar to its string
form at the serialization boundary). -/
inductive Node : Type where
  | mk (role : String) (identifier : String) (attrs : List (String × String))
       (actions : List String) (isVisible : Bool) (isInteractive : Bool)
       (highlightIndex : Option Nat) (path : String) (children : List Node)

def Node.role : Node → String
  | .mk r _ _ _ _ _ _ _ _ => r

def Node.identifier : Node → String
  | .mk _ i _ _ _ _ _ _ _ => i

def Node.attrs : Node → List (String × String)
  | .mk _ _ a _ _ _ _ _ _ => a

def Node.actions : Node → List String
  | .mk _ _ _ ac _ _ _ _ _ => ac

def Node.isVisible : Node → Bool
  | .mk _ _ _ _ v _ _ _ _ => v

def Node.isInteractive : Node → Bool
  | .mk _ _ _ _ _ iv _ _ _ => iv

def Node.highlightIndex : Node → Option Nat
  | .mk _ _ _ _ _ _ hi _ _ => hi

def Node.path : Node → String
  | .mk _ _ _ _ _ _ _ p _ => p

def Node.children : Node → List Node
  | .mk _ _ _ _ _ _ _ _ cs => cs

/-- Flattened per-node summary, the dictionary built by
`_convert_element_to_info`.  The `search_time`-style response metadata is not
part of the per-node record. -/
structure ElementInfo where
  role : String
  identifier : String
  attributes : List (String × String)
  isVisible : Bool
  isInteractive : Bool
  highlightIndex : Option Nat
  actions : List String
  childrenCount : Nat
  path : String
  parentPath : Option String
deriving DecidableEq, Repr

/-- Model of `_convert_element_to_info(element, parent_path)`.  With string-valued
attributes the JSON sanitization step (`_sanitize_attributes`) is the
identity, since every string value is JSON serializable. -/
def convertElementToInfo (e : Node) (parentPath : Option String) : ElementInfo :=
  { role := e.role
    identifier := e.identifier
    attributes := e.attrs
    isVisible := e.isVisible
    isInteractive := e.isInteractive
    highlightIndex := e.highlightIndex
    actions := e.actions
    childrenCount := e.children.length
    path := e.path
    parentPath := parentPath }

/-- Constant `EXCLUDE_ROLES` from `optimized_tree.py`. -/
def EXCLUDE_ROLES : List String :=
  ["AXRow", "AXCell", "AXTable", "AXColumn", "AXColumnHeader"]

/-- Constant `CONTAINER_ROLES` from `optimized_tree.py`. -/
def CONTAINER_ROLES : List String :=
  ["AXWindow", "AXGroup", "AXScrollArea", "AXSplitGroup", "AXTabGroup",
   "AXToolbar", "AXPopUpButton", "AXMenuBar", "AXOutline"]

mutual
/-- Model of `_has_interactive_descendants(node, max_depth, current_depth)`. -/
def hasInteractiveDescendants (node : Node) (maxDepth : Nat) (currentDepth : Nat) : Bool :=
  if maxDepth ≤ currentDepth then false
  else hasInteractiveDescendantsList node.children maxDepth currentDepth
termination_by sizeOf node
decreasing_by
  simp_wf
  cases node with
  | mk r i a ac v iv hi p cs => simp [Node.children]

/-- The `for grandchild in node.children` loop of
`_has_interactive_descendants`, with its early returns. -/
def hasInteractiveDescendantsList (gs : List Node) (maxDepth : Nat) (currentDepth : Nat) : Bool :=
  match gs with
  | [] => false
  | g :: rest =>
    if EXCLUDE_ROLES.contains g.role && !g.isInteractive then
      hasInteractiveDescendantsList rest maxDepth currentDepth
    else if g.isInteractive then
      true
    else if !g.children.isEmpty && hasInteractiveDescendants g maxDepth (currentDepth + 1) then
      true
    else
      hasInteractiveDescendantsList rest maxDepth currentDepth
termination_by sizeOf gs
decreasing_by
  all_goals simp_wf
  all_goals omega
end

/-- Model of `_should_include_child(child)`. -/
def shouldIncludeChild (child : Node) : Bool :=
  if EXCLUDE_ROLES.contains child.role && !child.isInteractive then false
  else if child.isInteractive then true
  else if CONTAINER_ROLES.contains child.role then true
  else if !child.children.isEmpty && hasInteractiveDescendants child 2 0 then true
  else false

/-- Model of `_filter_children_for_interactive(children)`: keep the children passing
`_should_include_child`, then truncate to the first 50. -/
def filterChildrenForInteractive (children : List Node) : List Node :=
  (children.filter shouldIncludeChild).take 50

mutual
/-- Preorder (depth-first, document order) listing of a snapshot's nodes.
This is the traversal order used to state the specification of
`_find_element_by_path`. -/
def preorderNode (n : Node) : List Node :=
  n :: preorderList n.children
termination_by sizeOf n
decreasing_by
  simp_wf
  cases n with
  | mk r i a ac v iv hi p cs => simp [Node.children]

/-- Preorder listing of a forest, in order. -/
def preorderList (l : List Node) : List Node :=
  match l with
  | [] => []
  | c :: rest => preorderNode c ++ preorderList rest
termination_by sizeOf l
decreasing_by
  all_goals simp_wf
  all_goals omega
end

mutual
/-- Model of `_find_element_by_path(node, target_path)`: return the node itself when
its accessibility path matches, otherwise recurse into the children in order
and return the first hit. -/
def findElementByPathNode (n : Node) (target : String) : Option Node :=
  if n.path == target then some n
  else findElementByPathList n.children target
termination_by sizeOf n
decreasing_by
  simp_wf
  cases n with
  | mk r i a ac v iv hi p cs => simp [Node.children]

/-- The `for child in node.children` loop of `_find_element_by_path`. -/
def findElementByPathList (l : List Node) (target : String) : Option Node :=
  match l with
  | [] => none
  | c :: rest =>
    match findElementByPathNode c target with
    | some r => some r
    | none => findElementByPathList rest target
termination_by sizeOf l
decreasing_by
  all_goals simp_wf
  all_goals omega
end

mutual
/-- The inner `collect_elements(node, parent_path)` closure of
`_flatten_tree_cached`: append this node's summary, then every child's
subtree, passing this node's accessibility path as the parent path. -/
def collectElements (node : Node) (parentPath : Option String) : List ElementInfo :=
  convertElementToInfo node parentPath :: collectElementsList node.children node.path
termination_by sizeOf node
decreasing_by
  simp_wf
  cases node with
  | mk r i a ac v iv hi p cs => simp [Node.children]

/-- The `for child in node.children` loop of `collect_elements`. -/
def collectElementsList (l : List Node) (parentPath : String) : List ElementInfo :=
  match l with
  | [] => []
  | c :: rest => collectElements c (some parentPath) ++ collectElementsList rest parentPath
termination_by sizeOf l
decreasing_by
  all_goals simp_wf
  all_goals omega
end

mutual
/-- Value-level rendering of the in-place mutation
`element.children = expanded_element.children` performed by
`expand_element`: the Python code mutates the node object returned by
`_find_element_by_path`, so, viewed as a value, the stored tree has the
children of its first preorder node matching `target` replaced. -/
def setChildrenAtPath (n : Node) (target : String) (newChildren : List Node) : Node :=
  match n with
  | .mk r i a ac v iv hi p cs =>
    if p == target then .mk r i a ac v iv hi p newChildren
    else .mk r i a ac v iv hi p (setChildrenAtPathList cs target newChildren)
termination_by sizeOf n
decreasing_by
  all_goals simp_wf

/-- Replace the children of the first matching node inside a forest; later
siblings are left untouched once one subtree contains the match. -/
def setChildrenAtPathList (l : List Node) (target : String) (newChildren : List Node) : List Node :=
  match l with
  | [] => []
  | c :: rest =>
    if (findElementByPathNode c target).isSome then
      setChildrenAtPath c target newChildren :: rest
    else
      c :: setChildrenAtPathList rest target newChildren
termination_by sizeOf l
decreasing_by
  all_goals simp_wf
  all_goals omega
end

/-! String helpers mirroring the Python string operations used by the
search path (`str.strip`, `str.lower`, `str.startswith`, and the substring
operator `in`).  Strings are handled through their character lists; `lower`
is the per-character ASCII lowering (`Char.toLower`), which agrees with
Python's `str.lower` on the ASCII strings handled here. -/

/-- Whitespace recognised by `str.strip()`. -/
def isSpaceChar (ch : Char) : Bool :=
  ch == ' ' || ch == '\t' || ch == '\n' || ch == '\r' ||
  ch == '\x0b' || ch == '\x0c'

/-- Python `s.strip()`. -/
def stripStr (s : String) : String :=
  ⟨((s.data.dropWhile isSpaceChar).reverse.dropWhile isSpaceChar).reverse⟩

/-- Python `s.lower()`. -/
def lowerStr (s : String) : String :=
  ⟨s.data.map Char.toLower⟩

/-- Whether `needle` occurs at the start of `hay` (on character lists). -/
def listStartsWith : List Char → List Char → Bool
  | [], _ => true
  | _ :: _, [] => false
  | a :: as, b :: bs => a == b && listStartsWith as bs

/-- Python's substring test `needle in hay`, on character lists. -/
def containsSubstr (needle : List Char) (hay : List Char) : Bool :=
  listStartsWith needle hay ||
    match hay with
    | [] => false
    | _ :: t => containsSubstr needle t

/-- Python `needle in hay` on strings. -/
def strContains (hay needle : String) : Bool :=
  containsSubstr needle.data hay.data

/-- Python `s.startswith(pre)`. -/
def strStartsWith (s pre : String) : Bool :=
  listStartsWith pre.data s.data

/-- Model of `_normalize_search_query(query, case_sensitive)`. -/
def normalizeSearchQuery (query : String) (caseSensitive : Bool) : String :=
  let q := stripStr query
  if caseSensitive then q else lowerStr q

/-- The fixed attribute keys consulted by `_extract_searchable_text`. -/
def searchAttrKeys : List String :=
  ["title", "value", "description", "label", "placeholder"]

/-- Association-list lookup with Python-dict key semantics (first, and with
the no-duplicate-keys discipline only, occurrence of the key). -/
def alistLookup {α β : Type} [BEq α] (k : α) : List (α × β) → Option β
  | [] => none
  | (k', v) :: rest => if k' == k then some v else alistLookup k rest

/-- Python dict assignment `d[k] = v`: replace the value when the key is
present, append otherwise. -/
def alistInsert {α β : Type} [BEq α] (k : α) (v : β) : List (α × β) → List (α × β)
  | [] => [(k, v)]
  | (k', v') :: rest =>
    if k' == k then (k, v) :: rest else (k', v') :: alistInsert k v rest

/-- Python `d.pop(k, None)` / `del d[k]`: drop the key's entry. -/
def alistErase {α β : Type} [BEq α] (k : α) (l : List (α × β)) : List (α × β) :=
  l.filter (fun p => !(p.1 == k))

/-- Model of `_extract_searchable_text(element, case_sensitive)`: the role (when
non-empty), then the values of the fixed attribute keys that are truthy and
non-blank, then the action names, joined with single spaces; lower-cased
unless the search is case-sensitive. -/
def extractSearchableText (e : ElementInfo) (caseSensitive : Bool) : String :=
  let roleParts : List String := if e.role == "" then [] else [e.role]
  let attrParts : List String := searchAttrKeys.filterMap (fun k =>
    match alistLookup k e.attributes with
    | none => none
    | some v => if v ≠ "" ∧ stripStr v ≠ "" then some v else none)
  let searchableText := String.intercalate " " (roleParts ++ attrParts ++ e.actions)
  if caseSensitive then searchableText else lowerStr searchableText

/-- The `f"{pid}:"` prefix that scopes a search-cache key to a pid. -/
def pidKey (pid : Nat) : String :=
  toString pid ++ ":"

/-- Model of `_get_cached_search_key(pid, query, case_sensitive)`.  The
`hashlib.md5(...).hexdigest()` digest of `f"{query}:{case_sensitive}"` is
modelled as the digested text itself; every claim here depends only on the
`f"{pid}:{digest}"` layout of the key, determined by `(query,
case_sensitive)`, not on the digest's value. -/
def getCachedSearchKey (pid : Nat) (query : String) (caseSensitive : Bool) : String :=
  pidKey pid ++ (query ++ ":" ++ (if caseSensitive then "True" else "False"))

/-- Model of `MacUITreeBuilder`, restricted to its per-pid traversal knobs
`max_depth` and `max_children` (the only builder state the cache module
reads or writes). -/
structure Builder where
  maxDepth : Nat
  maxChildren : Nat
deriving DecidableEq, Repr

/-- The defaults installed by `AppTreeCache.get_builder` on a fresh builder:
`max_children = 50`, `max_depth = 4`. -/
def defaultBuilder : Builder :=
  { maxDepth := 4, maxChildren := 50 }

/-- Model of `AppTreeCache`: the per-pid snapshot store, the derived flattened index,
the search-result cache (keyed by the `f"{pid}:{digest}"` strings), the
last-updated timestamps, and the per-pid builders.  The unused
`partial_trees` / `element_checksums` tables (written only by
`clear_all_caches`) are not modelled.  The `threading.Lock` disappears in
this sequential model: each operation is a whole atomic state transition. -/
structure Cache where
  trees : List (Nat × Node)
  elementsFlat : List (Nat × List ElementInfo)
  searchCache : List (String × List ElementInfo)
  lastUpdated : List (Nat × Nat)
  builders : List (Nat × Builder)

/-- Model of `AppTreeCache.get_builder(pid)`: return the stored builder, or install
and return a fresh one with the aggressive defaults. -/
def Cache.getBuilder (c : Cache) (pid : Nat) : Builder × Cache :=
  match alistLookup pid c.builders with
  | some b => (b, c)
  | none => (defaultBuilder, { c with builders := alistInsert pid defaultBuilder c.builders })

/-- Model of `AppTreeCache.invalidate(pid)`: drop the pid's snapshot, flattened
index and timestamp, and every search-cache entry whose key starts with
`f"{pid}:"`. -/
def Cache.invalidate (c : Cache) (pid : Nat) : Cache :=
  { c with
    trees := alistErase pid c.trees
    elementsFlat := alistErase pid c.elementsFlat
    lastUpdated := alistErase pid c.lastUpdated
    searchCache := c.searchCache.filter (fun p => !strStartsWith p.1 (pidKey pid)) }

/-- Model of `AppTreeCache.cleanup_builder(pid)`: release and drop the pid's builder
(the released OS resources are outside the model). -/
def Cache.cleanupBuilder (c : Cache) (pid : Nat) : Cache :=
  { c with builders := alistErase pid c.builders }

/-- Model of `OptimizedTreeManager.cleanup(pid)`: `cleanup_builder` then
`invalidate`. -/
def cleanup (c : Cache) (pid : Nat) : Cache :=
  (c.cleanupBuilder pid).invalidate pid

/-- Outcome of the external, OS-bound `builder.build_tree(pid)` call:
a tree was produced, a falsy `None` came back, or an exception was
raised. -/
inductive BuildOutcome : Type where
  | ok (t : Node)
  | noTree
  | raised

/-- The build phase of `_build_tree_cached` (everything after the freshness
check): fetch the pid's builder, apply the one-off `max_depth`/lazy-mode
overrides, run the builder, on a truthy tree swap in the new snapshot, stamp
it with the call's start time, and drop the flattened index; in every case
(`finally`) restore the builder's original settings. -/
def runBuild (c : Cache) (pid : Nat) (lazyMode : Bool) (maxDepth? : Option Nat)
    (now : Nat) (outcome : BuildOutcome) : Option Node × Cache :=
  let got := c.getBuilder pid
  let b0 := got.1
  let c1 := got.2
  let b1 :=
    match maxDepth? with
    | some d => { b0 with maxDepth := d }
    | none =>
      if lazyMode then { b0 with maxDepth := 3, maxChildren := 25 } else b0
  let c2 := { c1 with builders := alistInsert pid b1 c1.builders }
  let afterTry : Option Node × Cache :=
    match outcome with
    | .ok t =>
      (some t,
        { c2 with
          trees := alistInsert pid t c2.trees
          lastUpdated := alistInsert pid now c2.lastUpdated
          elementsFlat := alistErase pid c2.elementsFlat })
    | .noTree => (none, c2)
    | .raised => (none, c2)
  let restored := { b1 with maxDepth := b0.maxDepth, maxChildren := b0.maxChildren }
  (afterTry.1, { afterTry.2 with builders := alistInsert pid restored afterTry.2.builders })

/-- Model of `_build_tree_cached(cache, pid, force_refresh, lazy_mode, max_depth)`:
when not forced and a snapshot younger than 5 seconds exists, return it
untouched; otherwise run the build phase. -/
def buildTreeCached (c : Cache) (pid : Nat) (forceRefresh lazyMode : Bool)
    (maxDepth? : Option Nat) (now : Nat) (outcome : BuildOutcome) : Option Node × Cache :=
  match forceRefresh, alistLookup pid c.trees with
  | false, some t =>
    if now - (alistLookup pid c.lastUpdated).getD 0 < 5 then (some t, c)
    else runBuild c pid lazyMode maxDepth? now outcome
  | false, none => runBuild c pid lazyMode maxDepth? now outcome
  | true, _ => runBuild c pid lazyMode maxDepth? now outcome

/-- Model of `_flatten_tree_cached(cache, pid)`: serve the memoized flattened index,
or derive it from the stored snapshot and memoize it; an empty list when the
pid has no snapshot. -/
def flattenTreeCached (c : Cache) (pid : Nat) : List ElementInfo × Cache :=
  match alistLookup pid c.elementsFlat with
  | some els => (els, c)
  | none =>
    match alistLookup pid c.trees with
    | none => ([], c)
    | some t =>
      let els := collectElements t none
      (els, { c with elementsFlat := alistInsert pid els c.elementsFlat })

/-- Model of `OptimizedTreeManager.search_elements(pid, query, case_sensitive)`:
normalize the query, serve a memoized result when the key is cached,
otherwise ensure tree data (a non-forced lazy `build_tree`), flatten,
filter by substring containment over the searchable text, and memoize.
The result is the list of matching summaries (`total_count` is its length
and the elapsed time is outside the model). -/
def searchElements (c : Cache) (pid : Nat) (query : String) (caseSensitive : Bool)
    (now : Nat) (outcome : BuildOutcome) : List ElementInfo × Cache :=
  let normalizedQuery := normalizeSearchQuery query caseSensitive
  let key := getCachedSearchKey pid normalizedQuery caseSensitive
  match alistLookup key c.searchCache with
  | some cached => (cached, c)
  | none =>
    let built := buildTreeCached c pid false true none now outcome
    let flat := flattenTreeCached built.2 pid
    let matching := flat.1.filter
      (fun e => strContains (extractSearchableText e caseSensitive) normalizedQuery)
    (matching, { flat.2 with searchCache := alistInsert key matching flat.2.searchCache })

/-- Model of `OptimizedTreeManager.find_element_by_path(pid, element_path)`: `None`
when the pid has no snapshot, otherwise the depth-first search.  A typed
miss (`none`), never an exception. -/
def findElementByPath (c : Cache) (pid : Nat) (elementPath : String) : Option Node :=
  match alistLookup pid c.trees with
  | none => none
  | some t => findElementByPathNode t elementPath

/-- Model of `_expand_element_with_builder(builder, element, pid)`: raise the
builder's `max_depth` to 8 for the duration of the external
`_process_element` call (whose outcome is supplied), then restore it. -/
def expandElementWithBuilder (b : Builder) (outcome : Option Node) : Option Node × Builder :=
  let b1 := { b with maxDepth := 8 }
  (outcome, { b1 with maxDepth := b.maxDepth })

/-- Model of `OptimizedTreeManager.expand_element(pid, element_path)`: locate the
element in the stored snapshot, run the deeper expansion, and on success
mutate the located node in place (`element.children =
expanded_element.children`), which rewrites the stored tree at that node.
Returns the re-converted element info on success. -/
def expandElement (c : Cache) (pid : Nat) (elementPath : String)
    (outcome : Option Node) : Option ElementInfo × Cache :=
  match alistLookup pid c.trees with
  | none => (none, c)
  | some t =>
    match findElementByPathNode t elementPath with
    | none => (none, c)
    | some _ =>
      let got := c.getBuilder pid
      let expanded := expandElementWithBuilder got.1 outcome
      let c1 := { got.2 with builders := alistInsert pid expanded.2 got.2.builders }
      match expanded.1 with
      | none => (none, c1)
      | some ex =>
        let newTree := setChildrenAtPath t elementPath ex.children
        let info := (findElementByPathNode newTree elementPath).map
          (fun el => convertElementToInfo el none)
        (info, { c1 with trees := alistInsert pid newTree c1.trees })

/-- Spec-side reading of "has an interactive descendant within the bounded
lookahead of 2 levels" exactly as the claim words it: some descendant
reachable in at most `k` child steps is interactive, with no role-based
skipping. -/
def hasInteractiveDescendantPlain : Nat → Node → Bool
  | 0, _ => false
  | k' + 1, n =>
    n.children.any (fun c => c.isInteractive || hasInteractiveDescendantPlain k' c)

/-- Spec-side closed form of the code's bounded lookahead
`_has_interactive_descendants`: like the plain version, but a
non-interactive child with an excluded display role is skipped together
with its subtree. -/
def hasInteractiveDescendantSkip : Nat → Node → Bool
  | 0, _ => false
  | k' + 1, n =>
    n.children.any (fun c =>
      if EXCLUDE_ROLES.contains c.role && !c.isInteractive then false
      else c.isInteractive || hasInteractiveDescendantSkip k' c)

/-- The retention test exactly as claim C3 words it: directly interactive,
or a structural container role, or an interactive descendant within the
2-level lookahead. -/
def claimRetains (child : Node) : Bool :=
  child.isInteractive || CONTAINER_ROLES.contains child.role ||
    hasInteractiveDescendantPlain 2 child

/-! Concrete fixtures used by the witness and counterexample theorems. -/

/-- An interactive button titled `"ok"`. -/
def exButtonOk : Node :=
  .mk "AXButton" "btn1" [("title", "ok")] ["AXPress"] true true (some 0) "w/b" []

/-- A non-interactive display row whose only child is an interactive
button. -/
def exRow : Node :=
  .mk "AXRow" "row1" [] [] true false none "w/r" [exButtonOk]

/-- A window holding the `"ok"` button. -/
def exWindow : Node :=
  .mk "AXWindow" "win1" [] [] true false none "w" [exButtonOk]

/-- A second, rebuilt snapshot distinct from `exWindow`. -/
def exWindow2 : Node :=
  .mk "AXWindow" "win2" [] [] true false none "w2" []

/-- An empty, shallowly built group node. -/
def exGroup : Node :=
  .mk "AXGroup" "grp1" [] [] true false none "w/g" []

/-- A window whose only child is the shallow group. -/
def exWindowG : Node :=
  .mk "AXWindow" "win1" [] [] true false none "w" [exGroup]

/-- The deeper expansion of `exGroup` produced by an on-demand
`expand_element`: the same group with one child materialized. -/
def exGroupExpanded : Node :=
  .mk "AXGroup" "grp1" [] [] true false none "w/g" [exButtonOk]

/-- The value of the stored pid-7 snapshot after `expand_element` has
mutated the group node at `"w/g"` in place. -/
def exWindowGMut : Node :=
  .mk "AXWindow" "win1" [] [] true false none "w" [exGroupExpanded]

/-- A fixture cache holding snapshots for pids 1 and 2, flattened indices,
one pid-scoped search-cache entry each, timestamps, and builders. -/
def exCacheTwoPids : Cache :=
  { trees := [(1, exWindow), (2, exWindow2)]
    elementsFlat := [(1, collectElements exWindow none), (2, collectElements exWindow2 none)]
    searchCache := [(getCachedSearchKey 1 "ok" false, []), (getCachedSearchKey 2 "ok" false, [])]
    lastUpdated := [(1, 3), (2, 4)]
    builders := [(1, { maxDepth := 9, maxChildren := 77 }), (2, defaultBuilder)] }

/-- A fixture cache for pid 7 with a fresh snapshot, no flattened index, no
search-cache entries, and no builder. -/
def exCacheSearch : Cache :=
  { trees := [(7, exWindow)]
    elementsFlat := []
    searchCache := []
    lastUpdated := [(7, 3)]
    builders := [] }

/-- A fixture cache for pid 7 with a stored snapshot, flattened index,
pid-scoped search-cache entry, timestamp 0, and builder. -/
def exCacheFull : Cache :=
  { trees := [(7, exWindowG)]
    elementsFlat := [(7, collectElements exWindowG none)]
    searchCache := [(getCachedSearchKey 7 "ok" false, [convertElementToInfo exButtonOk (some "w")])]
    lastUpdated := [(7, 0)]
    builders := [(7, { maxDepth := 6, maxChildren := 33 })] }

/-! Helper lemmas about the association-list operations. -/

theorem alistLookup_insert_self {α β : Type} [BEq α] [LawfulBEq α]
    (k : α) (v : β) (l : List (α × β)) :
    alistLookup k (alistInsert k v l) = some v := by
  induction l with
  | nil => simp [alistInsert, alistLookup]
  | cons p rest ih =>
    obtain ⟨a, b⟩ := p
    cases hab : (a == k) with
    | true => simp [alistInsert, hab, alistLookup]
    | false => simp [alistInsert, hab, alistLookup, ih]

theorem alistLookup_insert_ne {α β : Type} [BEq α] [LawfulBEq α]
    (k k' : α) (v : β) (l : List (α × β)) (h : k ≠ k') :
    alistLookup k' (alistInsert k v l) = alistLookup k' l := by
  have hkk : (k == k') = false := beq_eq_false_iff_ne.mpr h
  induction l with
  | nil => simp [alistInsert, alistLookup, hkk]
  | cons p rest ih =>
    obtain ⟨a, b⟩ := p
    cases hab : (a == k) with
    | true =>
      have ha : a = k := eq_of_beq hab
      subst ha
      simp [alistInsert, hab, alistLookup, hkk]
    | false => simp [alistInsert, hab, alistLookup, ih]

theorem alistLookup_filter {α β : Type} [BEq α] [LawfulBEq α]
    (f : α → Bool) (k : α) (l : List (α × β)) :
    alistLookup k (l.filter (fun p => f p.1)) =
      if f k then alistLookup k l else none := by
  induction l with
  | nil => cases hf : f k <;> simp [alistLookup, hf]
  | cons p rest ih =>
    obtain ⟨a, b⟩ := p
    cases hab : (a == k) with
    | true =>
      have ha : a = k := eq_of_beq hab
      subst ha
      cases hf : f a <;> simp [List.filter_cons, hf, alistLookup, hab, ih]
    | false =>
      cases hf : f a <;> simp [List.filter_cons, hf, alistLookup, hab, ih]

theorem alistLookup_erase_self {α β : Type} [BEq α] [LawfulBEq α]
    (k : α) (l : List (α × β)) :
    alistLookup k (alistErase k l) = none := by
  have := alistLookup_filter (β := β) (fun a => !(a == k)) k l
  simpa [alistErase] using this

theorem alistLookup_erase_ne {α β : Type} [BEq α] [LawfulBEq α]
    (k k' : α) (l : List (α × β)) (h : k ≠ k') :
    alistLookup k' (alistErase k l) = alistLookup k' l := by
  have hkk : (k' == k) = false := beq_eq_false_iff_ne.mpr (fun e => h e.symm)
  have := alistLookup_filter (β := β) (fun a => !(a == k)) k' l
  simpa [alistErase, hkk] using this

/-! The depth-first path lookup finds exactly the first preorder node with
the requested accessibility path. -/

mutual
theorem findNode_eq_preorder (n : Node) (target : String) :
    findElementByPathNode n target =
      (preorderNode n).find? (fun m => m.path == target) := by
  rw [findElementByPathNode, preorderNode]
  cases h : n.path == target with
  | true => simp [List.find?, h]
  | false =>
    simp only [List.find?, h, if_false, Bool.false_eq_true]
    exact findList_eq_preorder n.children target
termination_by sizeOf n
decreasing_by
  simp_wf
  cases n with
  | mk r i a ac v iv hi p cs => simp [Node.children]

theorem findList_eq_preorder (l : List Node) (target : String) :
    findElementByPathList l target =
      (preorderList l).find? (fun m => m.path == target) := by
  match l with
  | [] => rw [findElementByPathList, preorderList]; rfl
  | c :: rest =>
    rw [findElementByPathList, preorderList, List.find?_append,
        ← findNode_eq_preorder c target, ← findList_eq_preorder rest target]
    cases hc : findElementByPathNode c target <;> simp [Option.or, hc]
termination_by sizeOf l
decreasing_by
  all_goals simp_wf
  all_goals omega
end

/-! The code's bounded interactive-descendant lookahead, rephrased as a
fuel-indexed recursion. -/

theorem hasInteractiveDescendantSkip_of_no_children (g : Node)
    (hemp : g.children.isEmpty = true) (k : Nat) :
    hasInteractiveDescendantSkip k g = false := by
  cases k with
  | zero => rfl
  | succ k' =>
    rw [hasInteractiveDescendantSkip]
    rw [List.isEmpty_iff] at hemp
    simp [hemp]

theorem hasInteractiveDescendants_eq_skip (fuel : Nat) :
    ∀ (n : Node) (maxDepth currentDepth : Nat),
      maxDepth - currentDepth = fuel →
      hasInteractiveDescendants n maxDepth currentDepth =
        hasInteractiveDescendantSkip fuel n := by
  induction fuel with
  | zero =>
    intro n maxDepth currentDepth h
    rw [hasInteractiveDescendants, hasInteractiveDescendantSkip]
    simp [Nat.sub_eq_zero_iff_le.mp h]
  | succ f ih =>
    intro n maxDepth currentDepth h
    have hf : maxDepth - (currentDepth + 1) = f := by omega
    rw [hasInteractiveDescendants, hasInteractiveDescendantSkip]
    rw [if_neg (by omega : ¬ maxDepth ≤ currentDepth)]
    have hlist : ∀ gs : List Node,
        hasInteractiveDescendantsList gs maxDepth currentDepth =
          gs.any (fun c =>
            if EXCLUDE_ROLES.contains c.role && !c.isInteractive then false
            else c.isInteractive || hasInteractiveDescendantSkip f c) := by
      intro gs
      induction gs with
      | nil => rw [hasInteractiveDescendantsList]; rfl
      | cons g rest ihg =>
        rw [hasInteractiveDescendantsList, List.any_cons]
        cases hexcl : EXCLUDE_ROLES.contains g.role && !g.isInteractive with
        | true => simp [hexcl, ihg]
        | false =>
          cases hint : g.isInteractive with
          | true => simp [hexcl, hint]
          | false =>
            have hg := ih g maxDepth (currentDepth + 1) hf
            cases hemp : g.children.isEmpty with
            | true =>
              have hskip := hasInteractiveDescendantSkip_of_no_children g hemp f
              simp [hexcl, hint, hemp, hskip, ihg]
            | false => simp [hexcl, hint, hemp, hg, ihg]
    exact hlist n.children

/-! Component lemmas for the cache transitions. -/

theorem getBuilder_of_some (c : Cache) (pid : Nat) (b : Builder)
    (h : alistLookup pid c.builders = some b) : c.getBuilder pid = (b, c) := by
  rw [Cache.getBuilder, h]

theorem runBuild_ok (c : Cache) (pid : Nat) (lazyMode : Bool) (maxDepth? : Option Nat)
    (now : Nat) (t : Node) :
    (runBuild c pid lazyMode maxDepth? now (.ok t)).1 = some t ∧
    ((runBuild c pid lazyMode maxDepth? now (.ok t)).2).trees = alistInsert pid t c.trees ∧
    ((runBuild c pid lazyMode maxDepth? now (.ok t)).2).lastUpdated = alistInsert pid now c.lastUpdated ∧
    ((runBuild c pid lazyMode maxDepth? now (.ok t)).2).elementsFlat = alistErase pid c.elementsFlat ∧
    ((runBuild c pid lazyMode maxDepth? now (.ok t)).2).searchCache = c.searchCache := by
  cases hb : alistLookup pid c.builders <;>
    simp [runBuild, Cache.getBuilder, hb]

theorem runBuild_failure (c : Cache) (pid : Nat) (lazyMode : Bool) (maxDepth? : Option Nat)
    (now : Nat) (outcome : BuildOutcome)
    (hout : outcome = .noTree ∨ outcome = .raised) :
    (runBuild c pid lazyMode maxDepth? now outcome).1 = none ∧
    ((runBuild c pid lazyMode maxDepth? now outcome).2).trees = c.trees ∧
    ((runBuild c pid lazyMode maxDepth? now outcome).2).lastUpdated = c.lastUpdated ∧
    ((runBuild c pid lazyMode maxDepth? now outcome).2).elementsFlat = c.elementsFlat ∧
    ((runBuild c pid lazyMode maxDepth? now outcome).2).searchCache = c.searchCache := by
  rcases hout with h | h <;> subst h <;>
    cases hb : alistLookup pid c.builders <;>
      simp [runBuild, Cache.getBuilder, hb]

theorem runBuild_builders_restored (c : Cache) (pid : Nat) (lazyMode : Bool)
    (maxDepth? : Option Nat) (now : Nat) (outcome : BuildOutcome) (b : Builder)
    (h : alistLookup pid c.builders = some b) :
    alistLookup pid ((runBuild c pid lazyMode maxDepth? now outcome).2).builders = some b := by
  cases outcome <;>
    simp [runBuild, Cache.getBuilder, h, alistLookup_insert_self]

theorem buildTree_fresh (c : Cache) (pid : Nat) (lazyMode : Bool) (maxDepth? : Option Nat)
    (now : Nat) (outcome : BuildOutcome) (t : Node)
    (ht : alistLookup pid c.trees = some t)
    (hfresh : now - (alistLookup pid c.lastUpdated).getD 0 < 5) :
    buildTreeCached c pid false lazyMode maxDepth? now outcome = (some t, c) := by
  simp [buildTreeCached, ht, hfresh]

theorem buildTree_runs (c : Cache) (pid : Nat) (forceRefresh lazyMode : Bool)
    (maxDepth? : Option Nat) (now : Nat) (outcome : BuildOutcome)
    (h : forceRefresh = true ∨ alistLookup pid c.trees = none ∨
         5 ≤ now - (alistLookup pid c.lastUpdated).getD 0) :
    buildTreeCached c pid forceRefresh lazyMode maxDepth? now outcome =
      runBuild c pid lazyMode maxDepth? now outcome := by
  rcases h with h | h | h
  · subst h
    cases hl : alistLookup pid c.trees <;> simp [buildTreeCached, hl]
  · cases forceRefresh <;> simp [buildTreeCached, h]
  · cases forceRefresh <;> cases hl : alistLookup pid c.trees <;>
      simp [buildTreeCached, hl, Nat.not_lt.mpr h]

theorem flatten_hit (c : Cache) (pid : Nat) (els : List ElementInfo)
    (h : alistLookup pid c.elementsFlat = some els) :
    flattenTreeCached c pid = (els, c) := by
  simp [flattenTreeCached, h]

theorem flatten_miss (c : Cache) (pid : Nat) (t : Node)
    (hf : alistLookup pid c.elementsFlat = none)
    (ht : alistLookup pid c.trees = some t) :
    flattenTreeCached c pid = (collectElements t none,
      { c with elementsFlat := alistInsert pid (collectElements t none) c.elementsFlat }) := by
  simp [flattenTreeCached, hf, ht]

theorem flatten_trees_unchanged (c : Cache) (pid : Nat) :
    ((flattenTreeCached c pid).2).trees = c.trees := by
  unfold flattenTreeCached
  cases h1 : alistLookup pid c.elementsFlat
  · cases h2 : alistLookup pid c.trees <;> simp
  · simp

theorem findElementByPath_eq (c : Cache) (pid : Nat) (p : String) (t : Node)
    (ht : alistLookup pid c.trees = some t) :
    findElementByPath c pid p = findElementByPathNode t p := by
  simp [findElementByPath, ht]

theorem expand_trees (c : Cache) (pid : Nat) (p : String) (t ex el : Node)
    (ht : alistLookup pid c.trees = some t)
    (hel : findElementByPathNode t p = some el) :
    ((expandElement c pid p (some ex)).2).trees =
      alistInsert pid (setChildrenAtPath t p ex.children) c.trees := by
  unfold expandElement
  cases hb : alistLookup pid c.builders <;>
    simp [ht, hel, Cache.getBuilder, hb, expandElementWithBuilder]

theorem findNode_exWindowG : findElementByPathNode exWindowG "w/g" = some exGroup := by
  simp [findElementByPathNode, findElementByPathList, exWindowG, exGroup,
    Node.path, Node.children]

theorem setChildren_exWindowG :
    setChildrenAtPath exWindowG "w/g" exGroupExpanded.children = exWindowGMut := by
  simp [setChildrenAtPath, setChildrenAtPathList, findElementByPathNode,
    findElementByPathList, exWindowG, exGroup, exGroupExpanded, exWindowGMut,
    Node.path, Node.children]

theorem findNode_exWindowGMut :
    findElementByPathNode exWindowGMut "w/g" = some exGroupExpanded := by
  simp [findElementByPathNode, findElementByPathList, exWindowGMut, exGroupExpanded,
    Node.path, Node.children]

/-! Claim theorems. -/

/-- Claim C3, counterexample: `_should_include_child` prunes a
non-interactive `AXRow` even though it has an interactive child, so the
claimed "retained if and only if interactive, container role, or
interactive descendant within 2 levels" is false as stated. -/
theorem C3_counterexample :
    shouldIncludeChild exRow = false ∧ claimRetains exRow = true := by
  exact ⟨by decide, by decide⟩

/-- Claim C3 (amended): a child is retained by the Interactive Filter iff
it is not a non-interactive node of an excluded display role (`AXRow`,
`AXCell`, `AXTable`, `AXColumn`, `AXColumnHeader`), and it is directly
interactive, or its role is a structural container role, or it has an
interactive descendant within the 2-level lookahead — where the lookahead
itself skips the subtrees of non-interactive excluded-role children.
Any child failing this test is pruned with its whole subtree. -/
theorem C3_theorem (child : Node) :
    shouldIncludeChild child =
      (!(EXCLUDE_ROLES.contains child.role && !child.isInteractive) &&
        (child.isInteractive || CONTAINER_ROLES.contains child.role ||
          hasInteractiveDescendantSkip 2 child)) := by
  have h2 := hasInteractiveDescendants_eq_skip 2 child 2 0 rfl
  rw [shouldIncludeChild]
  cases hexcl : EXCLUDE_ROLES.contains child.role && !child.isInteractive with
  | true => simp [hexcl]
  | false =>
    cases hint : child.isInteractive with
    | true => simp [hint]
    | false =>
      cases hcont : CONTAINER_ROLES.contains child.role with
      | true => simp [hint, hcont]
      | false =>
        cases hemp : child.children.isEmpty with
        | true =>
          have hskip := hasInteractiveDescendantSkip_of_no_children child hemp 2
          simp [hint, hcont, hemp, hskip]
        | false => simp [hint, hcont, hemp, h2]

/-- Claim C9: the Interactive Filter is pure and deterministic — filtering
an already-filtered child list returns it unchanged (idempotence), and the
filter's output is a sublist of its input, so every output node is an input
node, unmodified. -/
theorem C9_theorem (children : List Node) :
    filterChildrenForInteractive (filterChildrenForInteractive children) =
      filterChildrenForInteractive children ∧
    List.Sublist (filterChildrenForInteractive children) children := by
  constructor
  · rw [filterChildrenForInteractive, filterChildrenForInteractive]
    have hall : ∀ a ∈ (children.filter shouldIncludeChild).take 50,
        shouldIncludeChild a := by
      intro a ha
      exact List.of_mem_filter (List.take_subset _ _ ha)
    rw [List.filter_eq_self.mpr hall, List.take_take, min_self]
  · exact (List.take_sublist _ _).trans (List.filter_sublist _)

/-- Claim C8: `find_element_by_path(pid, p)` returns exactly the first node
in preorder of the pid's current snapshot whose accessibility path equals
`p`, and a typed `none` (never a fault) when the pid has no snapshot or no
node matches. -/
theorem C8_theorem (c : Cache) (pid : Nat) (p : String) :
    findElementByPath c pid p =
      (alistLookup pid c.trees).bind
        (fun t => (preorderNode t).find? (fun m => m.path == p)) := by
  cases h : alistLookup pid c.trees with
  | none => simp [findElementByPath, h]
  | some t => simp [findElementByPath, h, findNode_eq_preorder]

/-- Claim C1, counterexample: a forced rebuild that succeeds swaps in the
new snapshot and drops the flattened index, but the pid-scoped search-cache
entry survives untouched, so a memoized result derived from the replaced
snapshot can still be served. -/
theorem C1_counterexample :
    (buildTreeCached exCacheFull 7 true true none 10 (.ok exWindow2)).1 = some exWindow2 ∧
    alistLookup 7 ((buildTreeCached exCacheFull 7 true true none 10 (.ok exWindow2)).2).elementsFlat = none ∧
    ((buildTreeCached exCacheFull 7 true true none 10 (.ok exWindow2)).2).searchCache.any
      (fun p => strStartsWith p.1 (pidKey 7)) = true ∧
    ((buildTreeCached exCacheFull 7 true true none 10 (.ok exWindow2)).2).searchCache =
      exCacheFull.searchCache :=
  ⟨rfl, rfl, by decide, rfl⟩

/-- Claim C1 (amended): when a build_tree call performs a rebuild that
succeeds, the new snapshot is swapped in, its timestamp is stored, and the
pid's flattened index is dropped — but the search cache is left entirely
unchanged: pid-scoped search-cache entries are dropped only by
invalidate/cleanup, never by the rebuild itself. -/
theorem C1_theorem (c : Cache) (pid : Nat) (lazyMode : Bool) (maxDepth? : Option Nat)
    (now : Nat) (t : Node) :
    (buildTreeCached c pid true lazyMode maxDepth? now (.ok t)).1 = some t ∧
    ((buildTreeCached c pid true lazyMode maxDepth? now (.ok t)).2).trees =
      alistInsert pid t c.trees ∧
    ((buildTreeCached c pid true lazyMode maxDepth? now (.ok t)).2).lastUpdated =
      alistInsert pid now c.lastUpdated ∧
    ((buildTreeCached c pid true lazyMode maxDepth? now (.ok t)).2).elementsFlat =
      alistErase pid c.elementsFlat ∧
    ((buildTreeCached c pid true lazyMode maxDepth? now (.ok t)).2).searchCache =
      c.searchCache := by
  rw [buildTree_runs c pid true lazyMode maxDepth? now (.ok t) (Or.inl rfl)]
  exact runBuild_ok c pid lazyMode maxDepth? now t

/-- Claim C2: a non-forced build_tree call on a snapshot younger than the
5-second freshness window returns the stored snapshot with the whole cache
(hence its timestamp) unchanged, whatever the builder would have produced;
a forced call always runs the builder and, on success, stores the call's
timestamp, strictly later than the previous one. -/
theorem C2_theorem (c : Cache) (pid : Nat) (lazyMode : Bool) (maxDepth? : Option Nat)
    (now t0 : Nat) (t newTree : Node) (outcome : BuildOutcome)
    (ht : alistLookup pid c.trees = some t)
    (hts : alistLookup pid c.lastUpdated = some t0)
    (hfresh : now - t0 < 5)
    (hlater : t0 < now) :
    buildTreeCached c pid false lazyMode maxDepth? now outcome = (some t, c) ∧
    (buildTreeCached c pid true lazyMode maxDepth? now (.ok newTree)).1 = some newTree ∧
    alistLookup pid
      ((buildTreeCached c pid true lazyMode maxDepth? now (.ok newTree)).2).lastUpdated =
        some now ∧
    t0 < now := by
  have hg : now - (alistLookup pid c.lastUpdated).getD 0 < 5 := by
    rw [hts]; simpa using hfresh
  refine ⟨buildTree_fresh c pid lazyMode maxDepth? now outcome t ht hg, ?_, ?_, hlater⟩
  · rw [buildTree_runs c pid true lazyMode maxDepth? now (.ok newTree) (Or.inl rfl)]
    exact (runBuild_ok c pid lazyMode maxDepth? now newTree).1
  · rw [buildTree_runs c pid true lazyMode maxDepth? now (.ok newTree) (Or.inl rfl),
        (runBuild_ok c pid lazyMode maxDepth? now newTree).2.2.1]
    exact alistLookup_insert_self pid now c.lastUpdated

/-- Claim C2, witness at a cache whose pid-7 snapshot was stamped at time 0
and is read at time 3. -/
theorem C2_witness :
    alistLookup 7 exCacheFull.trees = some exWindowG ∧
    alistLookup 7 exCacheFull.lastUpdated = some 0 ∧
    3 - 0 < 5 ∧ 0 < 3 ∧
    buildTreeCached exCacheFull 7 false true none 3 .noTree = (some exWindowG, exCacheFull) ∧
    (buildTreeCached exCacheFull 7 true true none 3 (.ok exWindow2)).1 = some exWindow2 ∧
    alistLookup 7
      ((buildTreeCached exCacheFull 7 true true none 3 (.ok exWindow2)).2).lastUpdated =
        some 3 := by
  have h := C2_theorem exCacheFull 7 true none 3 0 exWindowG exWindow2 .noTree
    rfl rfl (by decide) (by decide)
  exact ⟨rfl, rfl, by decide, by decide, h.1, h.2.1, h.2.2.1⟩

/-- Claim C10: when the builder raises or yields no tree during a
build_tree call that actually reaches the build phase (forced, or no
snapshot, or a stale snapshot), the call returns `none` and the snapshot,
timestamp, flattened-index, and search-cache tables are left exactly as
they were. -/
theorem C10_theorem (c : Cache) (pid : Nat) (forceRefresh lazyMode : Bool)
    (maxDepth? : Option Nat) (now : Nat) (outcome : BuildOutcome)
    (hout : outcome = .noTree ∨ outcome = .raised)
    (hrun : forceRefresh = true ∨ alistLookup pid c.trees = none ∨
            5 ≤ now - (alistLookup pid c.lastUpdated).getD 0) :
    (buildTreeCached c pid forceRefresh lazyMode maxDepth? now outcome).1 = none ∧
    ((buildTreeCached c pid forceRefresh lazyMode maxDepth? now outcome).2).trees = c.trees ∧
    ((buildTreeCached c pid forceRefresh lazyMode maxDepth? now outcome).2).lastUpdated =
      c.lastUpdated ∧
    ((buildTreeCached c pid forceRefresh lazyMode maxDepth? now outcome).2).elementsFlat =
      c.elementsFlat ∧
    ((buildTreeCached c pid forceRefresh lazyMode maxDepth? now outcome).2).searchCache =
      c.searchCache := by
  rw [buildTree_runs c pid forceRefresh lazyMode maxDepth? now outcome hrun]
  exact runBuild_failure c pid lazyMode maxDepth? now outcome hout

/-- Claim C10, witness: a forced build over a populated pid-7 cache whose
builder raises leaves every table untouched. -/
theorem C10_witness :
    (buildTreeCached exCacheFull 7 true true none 10 .raised).1 = none ∧
    ((buildTreeCached exCacheFull 7 true true none 10 .raised).2).trees = exCacheFull.trees ∧
    ((buildTreeCached exCacheFull 7 true true none 10 .raised).2).lastUpdated =
      exCacheFull.lastUpdated ∧
    ((buildTreeCached exCacheFull 7 true true none 10 .raised).2).elementsFlat =
      exCacheFull.elementsFlat ∧
    ((buildTreeCached exCacheFull 7 true true none 10 .raised).2).searchCache =
      exCacheFull.searchCache :=
  C10_theorem exCacheFull 7 true true none 10 .raised (Or.inr rfl) (Or.inl rfl)

/-- Claim C6: after `cleanup(pid)` the cache holds no snapshot, flattened
index, timestamp, builder, or pid-scoped search-cache entry for that pid
(an entry is scoped to the pid when its key starts with `f"{pid}:"`), and
every entry belonging to another key is unchanged. -/
theorem C6_theorem (c : Cache) (pid : Nat) :
    alistLookup pid (cleanup c pid).trees = none ∧
    alistLookup pid (cleanup c pid).elementsFlat = none ∧
    alistLookup pid (cleanup c pid).lastUpdated = none ∧
    alistLookup pid (cleanup c pid).builders = none ∧
    (∀ k : String, strStartsWith k (pidKey pid) = true →
      alistLookup k (cleanup c pid).searchCache = none) ∧
    (∀ pid' : Nat, pid' ≠ pid →
      alistLookup pid' (cleanup c pid).trees = alistLookup pid' c.trees ∧
      alistLookup pid' (cleanup c pid).elementsFlat = alistLookup pid' c.elementsFlat ∧
      alistLookup pid' (cleanup c pid).lastUpdated = alistLookup pid' c.lastUpdated ∧
      alistLookup pid' (cleanup c pid).builders = alistLookup pid' c.builders) ∧
    (∀ k : String, strStartsWith k (pidKey pid) = false →
      alistLookup k (cleanup c pid).searchCache = alistLookup k c.searchCache) := by
  refine ⟨alistLookup_erase_self pid c.trees, alistLookup_erase_self pid c.elementsFlat,
    alistLookup_erase_self pid c.lastUpdated, alistLookup_erase_self pid c.builders,
    ?_, ?_, ?_⟩
  · intro k hk
    have h := alistLookup_filter (β := List ElementInfo)
      (fun s => !strStartsWith s (pidKey pid)) k c.searchCache
    rw [hk] at h
    simpa using h
  · intro pid' hne
    exact ⟨alistLookup_erase_ne pid pid' c.trees (Ne.symm hne),
      alistLookup_erase_ne pid pid' c.elementsFlat (Ne.symm hne),
      alistLookup_erase_ne pid pid' c.lastUpdated (Ne.symm hne),
      alistLookup_erase_ne pid pid' c.builders (Ne.symm hne)⟩
  · intro k hk
    have h := alistLookup_filter (β := List ElementInfo)
      (fun s => !strStartsWith s (pidKey pid)) k c.searchCache
    rw [hk] at h
    simpa using h

/-- Claim C6, witness: cleaning up pid 1 of a two-pid cache clears every
pid-1 table entry and the `"1:"`-scoped search entry, while pid 2's
snapshot, builder, and search entry survive unchanged. -/
theorem C6_witness :
    alistLookup 1 (cleanup exCacheTwoPids 1).trees = none ∧
    alistLookup 1 (cleanup exCacheTwoPids 1).builders = none ∧
    alistLookup (getCachedSearchKey 1 "ok" false) (cleanup exCacheTwoPids 1).searchCache = none ∧
    alistLookup 2 (cleanup exCacheTwoPids 1).trees = alistLookup 2 exCacheTwoPids.trees ∧
    alistLookup 2 (cleanup exCacheTwoPids 1).builders = alistLookup 2 exCacheTwoPids.builders ∧
    alistLookup (getCachedSearchKey 2 "ok" false) (cleanup exCacheTwoPids 1).searchCache =
      alistLookup (getCachedSearchKey 2 "ok" false) exCacheTwoPids.searchCache := by
  obtain ⟨h1, h2, h3, h4, h5, h6, h7⟩ := C6_theorem exCacheTwoPids 1
  exact ⟨h1, h4, h5 _ (by decide), (h6 2 (by decide)).1, (h6 2 (by decide)).2.2.2,
    h7 _ (by decide)⟩

/-- Claim C7: when the pid already has a builder, its `max_depth` and
`max_children` are restored to their pre-call values by every build_tree
call (cached, successful, empty, or raising) and by every expand_element
call, whatever their outcome. -/
theorem C7_theorem (c : Cache) (pid : Nat) (forceRefresh lazyMode : Bool)
    (maxDepth? : Option Nat) (now : Nat) (outcome : BuildOutcome)
    (p : String) (exOutcome : Option Node) (b : Builder)
    (hb : alistLookup pid c.builders = some b) :
    alistLookup pid
      ((buildTreeCached c pid forceRefresh lazyMode maxDepth? now outcome).2).builders =
        some b ∧
    alistLookup pid ((expandElement c pid p exOutcome).2).builders = some b := by
  constructor
  · cases forceRefresh with
    | true =>
      rw [buildTree_runs c pid true lazyMode maxDepth? now outcome (Or.inl rfl)]
      exact runBuild_builders_restored c pid lazyMode maxDepth? now outcome b hb
    | false =>
      cases hl : alistLookup pid c.trees with
      | none =>
        rw [buildTree_runs c pid false lazyMode maxDepth? now outcome (Or.inr (Or.inl hl))]
        exact runBuild_builders_restored c pid lazyMode maxDepth? now outcome b hb
      | some t =>
        by_cases hfresh : now - (alistLookup pid c.lastUpdated).getD 0 < 5
        · rw [buildTree_fresh c pid lazyMode maxDepth? now outcome t hl hfresh]
          exact hb
        · rw [buildTree_runs c pid false lazyMode maxDepth? now outcome
            (Or.inr (Or.inr (Nat.not_lt.mp hfresh)))]
          exact runBuild_builders_restored c pid lazyMode maxDepth? now outcome b hb
  · unfold expandElement
    cases hl : alistLookup pid c.trees with
    | none => simpa using hb
    | some t =>
      cases hf : findElementByPathNode t p with
      | none => simpa [hf] using hb
      | some el =>
        cases exOutcome with
        | none =>
          simp [hf, Cache.getBuilder, hb, expandElementWithBuilder, alistLookup_insert_self]
        | some ex =>
          simp [hf, Cache.getBuilder, hb, expandElementWithBuilder, alistLookup_insert_self]

/-- Claim C7, witness: pid 7's builder `{max_depth := 6, max_children :=
33}` is intact after a forced custom-depth build and after an expansion. -/
theorem C7_witness :
    alistLookup 7 exCacheFull.builders = some { maxDepth := 6, maxChildren := 33 } ∧
    alistLookup 7
      ((buildTreeCached exCacheFull 7 true true (some 9) 10 (.ok exWindow2)).2).builders =
        some { maxDepth := 6, maxChildren := 33 } ∧
    alistLookup 7 ((expandElement exCacheFull 7 "w/g" (some exGroupExpanded)).2).builders =
      some { maxDepth := 6, maxChildren := 33 } := by
  have h := C7_theorem exCacheFull 7 true true (some 9) 10 (.ok exWindow2) "w/g"
    (some exGroupExpanded) { maxDepth := 6, maxChildren := 33 } rfl
  exact ⟨rfl, h.1, h.2⟩

/-- Claim C4: on a fresh snapshot with no memoized flattened index and no
memoized result for the normalized query, search returns exactly the
flattened elements whose searchable text (role, the truthy non-blank values
of title/value/description/label/placeholder, then action names, joined
with spaces, lower-cased unless case-sensitive) contains the stripped and,
unless case-sensitive, lower-cased query as a substring. -/
theorem C4_theorem (c : Cache) (pid : Nat) (query : String) (caseSensitive : Bool)
    (now : Nat) (outcome : BuildOutcome) (t : Node)
    (hkey : alistLookup
      (getCachedSearchKey pid (normalizeSearchQuery query caseSensitive) caseSensitive)
      c.searchCache = none)
    (ht : alistLookup pid c.trees = some t)
    (hfresh : now - (alistLookup pid c.lastUpdated).getD 0 < 5)
    (hflat : alistLookup pid c.elementsFlat = none) :
    (searchElements c pid query caseSensitive now outcome).1 =
      (collectElements t none).filter
        (fun e => strContains (extractSearchableText e caseSensitive)
          (normalizeSearchQuery query caseSensitive)) := by
  simp only [searchElements, hkey,
    buildTree_fresh c pid true none now outcome t ht hfresh,
    flatten_miss c pid t hflat ht]

/-- Claim C4, witness: in a cache whose pid-7 snapshot holds one button
titled `"ok"`, `search(7, "OK", case_sensitive := false)` matches exactly
that button while `search(7, "OK", case_sensitive := true)` matches
nothing. -/
theorem C4_witness :
    alistLookup (getCachedSearchKey 7 (normalizeSearchQuery "OK" false) false)
      exCacheSearch.searchCache = none ∧
    alistLookup 7 exCacheSearch.trees = some exWindow ∧
    5 - (alistLookup 7 exCacheSearch.lastUpdated).getD 0 < 5 ∧
    alistLookup 7 exCacheSearch.elementsFlat = none ∧
    (searchElements exCacheSearch 7 "OK" false 5 .noTree).1 =
      [convertElementToInfo exButtonOk (some "w")] ∧
    (searchElements exCacheSearch 7 "OK" true 5 .noTree).1 = [] := by
  have hcol : collectElements exWindow none =
      [convertElementToInfo exWindow none, convertElementToInfo exButtonOk (some "w")] := by
    simp [collectElements, collectElementsList, exWindow, exButtonOk, Node.children, Node.path]
  have hfalse := C4_theorem exCacheSearch 7 "OK" false 5 .noTree exWindow
    rfl rfl (by decide) rfl
  have htrue := C4_theorem exCacheSearch 7 "OK" true 5 .noTree exWindow
    rfl rfl (by decide) rfl
  rw [hcol] at hfalse htrue
  refine ⟨rfl, rfl, by decide, rfl, ?_, ?_⟩
  · rw [hfalse]; decide
  · rw [htrue]; decide

/-- Claim C5, counterexample: `expand_element` mutates a stored snapshot
node in place — expanding the empty group at path `"w/g"` leaves the pid-7
snapshot holding a group with one child, without any rebuild having swapped
the root. -/
theorem C5_counterexample :
    ((findElementByPath exCacheFull 7 "w/g").map (fun n => n.children.length)) = some 0 ∧
    ((findElementByPath ((expandElement exCacheFull 7 "w/g" (some exGroupExpanded)).2)
        7 "w/g").map (fun n => n.children.length)) = some 1 := by
  have htr : ((expandElement exCacheFull 7 "w/g" (some exGroupExpanded)).2).trees =
      alistInsert 7 (setChildrenAtPath exWindowG "w/g" exGroupExpanded.children)
        exCacheFull.trees :=
    expand_trees exCacheFull 7 "w/g" exWindowG exGroupExpanded exGroup rfl findNode_exWindowG
  constructor
  · rw [findElementByPath_eq exCacheFull 7 "w/g" exWindowG rfl, findNode_exWindowG]
    rfl
  · rw [findElementByPath_eq ((expandElement exCacheFull 7 "w/g" (some exGroupExpanded)).2)
      7 "w/g" exWindowGMut (by
        rw [htr, setChildren_exWindowG]
        exact alistLookup_insert_self 7 exWindowGMut exCacheFull.trees)]
    rw [findNode_exWindowGMut]
    rfl

/-- Claim C5 (amended): search, filter, flatten, and path lookup leave the
stored snapshot's nodes untouched, and a rebuild replaces the root
wholesale; but `expand_element`, when the deeper build returns an
expansion, mutates the located node of the stored snapshot in place by
overwriting its children — the snapshot does not change only by wholesale
root replacement. -/
theorem C5_theorem (c : Cache) (pid : Nat) (p : String) (t ex : Node)
    (ht : alistLookup pid c.trees = some t)
    (hfind : (findElementByPathNode t p).isSome = true) :
    ((flattenTreeCached c pid).2).trees = c.trees ∧
    ((expandElement c pid p (some ex)).2).trees =
      alistInsert pid (setChildrenAtPath t p ex.children) c.trees := by
  obtain ⟨el, hel⟩ := Option.isSome_iff_exists.mp hfind
  exact ⟨flatten_trees_unchanged c pid, expand_trees c pid p t ex el ht hel⟩

/-- Claim C5, witness: flattening leaves the pid-7 snapshot unchanged, and
expanding the group at `"w/g"` rewrites exactly that node's children inside
the stored snapshot. -/
theorem C5_witness :
    alistLookup 7 exCacheFull.trees = some exWindowG ∧
    (findElementByPathNode exWindowG "w/g").isSome = true ∧
    ((flattenTreeCached exCacheFull 7).2).trees = exCacheFull.trees ∧
    ((expandElement exCacheFull 7 "w/g" (some exGroupExpanded)).2).trees =
      alistInsert 7 (setChildrenAtPath exWindowG "w/g" exGroupExpanded.children)
        exCacheFull.trees := by
  have h := C5_theorem exCacheFull 7 "w/g" exWindowG exGroupExpanded rfl
    (by rw [findNode_exWindowG]; rfl)
  exact ⟨rfl, by rw [findNode_exWindowG]; rfl, h.1, h.2⟩

end MacosUse
